import Mathlib

/-!
Verification of the data-cleaning, filtering and charting pipeline of the
air-quality dashboard script.  Tables are embedded as lists of rows; pandas
missing values (`NaN` / `pd.NA`) are embedded as `none`; CSV cells are
strings.  Each definition mirrors one function or module-level statement of
the script.
-/

/-- One row of the city pollutant table (`airqualitybycity2000-2023.csv`):
columns `CBSA`, `Core Based Statistical Area`, `Pollutant`,
`Trend Statistic`, then one cell per year 2000-2023. -/
structure CityRow where
  cbsa : Option String
  areaName : Option String
  pollutant : Option String
  trendStat : Option String
  years : List (Option String)
  deriving Repr, DecidableEq

/-- `city_data['CBSA'].fillna(method='ffill', inplace=True)`: forward-fill of
the `CBSA` column, carrying the last non-missing value in `acc`. -/
def ffillCBSA (acc : Option String) : List CityRow → List CityRow
  | [] => []
  | r :: rs =>
    match r.cbsa with
    | some v => r :: ffillCBSA (some v) rs
    | none => { r with cbsa := acc } :: ffillCBSA acc rs

/-- `city_data['Core Based Statistical Area'].fillna(method='ffill', ...)`:
forward-fill of the area-name column. -/
def ffillName (acc : Option String) : List CityRow → List CityRow
  | [] => []
  | r :: rs =>
    match r.areaName with
    | some v => r :: ffillName (some v) rs
    | none => { r with areaName := acc } :: ffillName acc rs

/-- `load_city_data`: reads the city CSV (the raw table is a parameter, the
fetch being external I/O) and forward-fills the two group-key columns. -/
def load_city_data (raw : List CityRow) : List CityRow :=
  ffillName none (ffillCBSA none raw)

theorem ffillCBSA_length (acc : Option String) (l : List CityRow) :
    (ffillCBSA acc l).length = l.length := by
  induction l generalizing acc with
  | nil => rfl
  | cons r rs ih =>
    cases h : r.cbsa <;> simp [ffillCBSA, h, ih]

theorem ffillName_length (acc : Option String) (l : List CityRow) :
    (ffillName acc l).length = l.length := by
  induction l generalizing acc with
  | nil => rfl
  | cons r rs ih =>
    cases h : r.areaName <;> simp [ffillName, h, ih]

/-- Forward-filling the CBSA column leaves every other field of every row
unchanged. -/
theorem ffillCBSA_other_fields (acc : Option String) (l : List CityRow)
    (i : Nat) (r : CityRow) (h : l[i]? = some r) :
    ∃ r', (ffillCBSA acc l)[i]? = some r' ∧ r'.areaName = r.areaName ∧
      r'.pollutant = r.pollutant ∧ r'.trendStat = r.trendStat ∧
      r'.years = r.years := by
  induction l generalizing acc i with
  | nil => simp at h
  | cons a rs ih =>
    cases i with
    | zero =>
      simp at h
      subst h
      cases hc : a.cbsa with
      | none =>
        exact ⟨{ a with cbsa := acc }, by simp [ffillCBSA, hc], rfl, rfl, rfl, rfl⟩
      | some v =>
        exact ⟨a, by simp [ffillCBSA, hc], rfl, rfl, rfl, rfl⟩
    | succ i =>
      simp at h
      cases hc : a.cbsa with
      | none =>
        obtain ⟨r', h1, h2⟩ := ih acc i h
        exact ⟨r', by simpa [ffillCBSA, hc] using h1, h2⟩
      | some v =>
        obtain ⟨r', h1, h2⟩ := ih (some v) i h
        exact ⟨r', by simpa [ffillCBSA, hc] using h1, h2⟩

/-- Forward-filling the area-name column leaves the CBSA column (and the
other fields) of every row unchanged. -/
theorem ffillName_other_fields (acc : Option String) (l : List CityRow)
    (i : Nat) (r : CityRow) (h : l[i]? = some r) :
    ∃ r', (ffillName acc l)[i]? = some r' ∧ r'.cbsa = r.cbsa ∧
      r'.pollutant = r.pollutant ∧ r'.trendStat = r.trendStat ∧
      r'.years = r.years := by
  induction l generalizing acc i with
  | nil => simp at h
  | cons a rs ih =>
    cases i with
    | zero =>
      simp at h
      subst h
      cases hc : a.areaName with
      | none =>
        exact ⟨{ a with areaName := acc }, by simp [ffillName, hc], rfl, rfl, rfl, rfl⟩
      | some v =>
        exact ⟨a, by simp [ffillName, hc], rfl, rfl, rfl, rfl⟩
    | succ i =>
      simp at h
      cases hc : a.areaName with
      | none =>
        obtain ⟨r', h1, h2⟩ := ih acc i h
        exact ⟨r', by simpa [ffillName, hc] using h1, h2⟩
      | some v =>
        obtain ⟨r', h1, h2⟩ := ih (some v) i h
        exact ⟨r', by simpa [ffillName, hc] using h1, h2⟩

/-- A row whose CBSA is present is unchanged by the CBSA forward-fill. -/
theorem ffillCBSA_keep (acc : Option String) (l : List CityRow)
    (i : Nat) (r : CityRow) (h : l[i]? = some r) (v : String)
    (hv : r.cbsa = some v) :
    ∃ r', (ffillCBSA acc l)[i]? = some r' ∧ r'.cbsa = some v := by
  induction l generalizing acc i with
  | nil => simp at h
  | cons a rs ih =>
    cases i with
    | zero =>
      simp at h
      subst h
      simp [ffillCBSA, hv]
    | succ i =>
      simp at h
      cases hc : a.cbsa with
      | none =>
        obtain ⟨r', h1, h2⟩ := ih acc i h
        exact ⟨r', by simpa [ffillCBSA, hc] using h1, h2⟩
      | some w =>
        obtain ⟨r', h1, h2⟩ := ih (some w) i h
        exact ⟨r', by simpa [ffillCBSA, hc] using h1, h2⟩

/-- A row whose area name is present is unchanged by the name forward-fill. -/
theorem ffillName_keep (acc : Option String) (l : List CityRow)
    (i : Nat) (r : CityRow) (h : l[i]? = some r) (v : String)
    (hv : r.areaName = some v) :
    ∃ r', (ffillName acc l)[i]? = some r' ∧ r'.areaName = some v := by
  induction l generalizing acc i with
  | nil => simp at h
  | cons a rs ih =>
    cases i with
    | zero =>
      simp at h
      subst h
      simp [ffillName, hv]
    | succ i =>
      simp at h
      cases hc : a.areaName with
      | none =>
        obtain ⟨r', h1, h2⟩ := ih acc i h
        exact ⟨r', by simpa [ffillName, hc] using h1, h2⟩
      | some w =>
        obtain ⟨r', h1, h2⟩ := ih (some w) i h
        exact ⟨r', by simpa [ffillName, hc] using h1, h2⟩

/-- If every CBSA cell up to index `i` is missing, the fill writes the
carried value `acc` at index `i`. -/
theorem ffillCBSA_all_none (acc : Option String) (l : List CityRow)
    (i : Nat) (r : CityRow) (h : l[i]? = some r)
    (hall : ∀ k, k ≤ i → ∀ rk, l[k]? = some rk → rk.cbsa = none) :
    ∃ r', (ffillCBSA acc l)[i]? = some r' ∧ r'.cbsa = acc := by
  induction l generalizing acc i with
  | nil => simp at h
  | cons a rs ih =>
    have ha : a.cbsa = none := hall 0 (Nat.zero_le _) a (by simp)
    cases i with
    | zero =>
      simp at h
      subst h
      simp [ffillCBSA, ha]
    | succ i =>
      simp at h
      obtain ⟨r', h1, h2⟩ := ih acc i h
        (fun k hk rk hrk => hall (k + 1) (Nat.succ_le_succ hk) rk (by simpa using hrk))
      exact ⟨r', by simpa [ffillCBSA, ha] using h1, h2⟩

/-- If every area-name cell up to index `i` is missing, the fill writes the
carried value `acc` at index `i`. -/
theorem ffillName_all_none (acc : Option String) (l : List CityRow)
    (i : Nat) (r : CityRow) (h : l[i]? = some r)
    (hall : ∀ k, k ≤ i → ∀ rk, l[k]? = some rk → rk.areaName = none) :
    ∃ r', (ffillName acc l)[i]? = some r' ∧ r'.areaName = acc := by
  induction l generalizing acc i with
  | nil => simp at h
  | cons a rs ih =>
    have ha : a.areaName = none := hall 0 (Nat.zero_le _) a (by simp)
    cases i with
    | zero =>
      simp at h
      subst h
      simp [ffillName, ha]
    | succ i =>
      simp at h
      obtain ⟨r', h1, h2⟩ := ih acc i h
        (fun k hk rk hrk => hall (k + 1) (Nat.succ_le_succ hk) rk (by simpa using hrk))
      exact ⟨r', by simpa [ffillName, ha] using h1, h2⟩

/-- Nearest-preceding fill for the CBSA column: if row `j` holds `some v`,
all rows strictly between `j` and `i` are missing, and row `i` is missing,
then the filled row `i` holds `some v`. -/
theorem ffillCBSA_fill (acc : Option String) (l : List CityRow)
    (i j : Nat) (ri rj : CityRow) (hij : j < i)
    (hj : l[j]? = some rj) (hjv : rj.cbsa = some v)
    (hbet : ∀ k, j < k → k < i → ∀ rk, l[k]? = some rk → rk.cbsa = none)
    (hi : l[i]? = some ri) (hiv : ri.cbsa = none) :
    ∃ r', (ffillCBSA acc l)[i]? = some r' ∧ r'.cbsa = some v := by
  induction l generalizing acc i j with
  | nil => simp at hj
  | cons a rs ih =>
    cases j with
    | zero =>
      simp at hj
      subst hj
      obtain ⟨i', rfl⟩ := Nat.exists_eq_add_of_lt hij
      simp only [Nat.zero_add] at *
      rw [List.getElem?_cons_succ] at hi
      obtain ⟨r', h1, h2⟩ := ffillCBSA_all_none (some v) rs i' ri hi
        (fun k hk rk hrk => by
          rcases Nat.lt_or_ge k i' with hlt | hge
          · exact hbet (k + 1) (Nat.succ_pos _) (by omega) rk (by simpa using hrk)
          · have : k = i' := Nat.le_antisymm hk hge
            subst this
            rw [hi] at hrk
            cases hrk
            exact hiv)
      exact ⟨r', by simpa [ffillCBSA, hjv] using h1, h2⟩
    | succ j =>
      obtain ⟨i', rfl⟩ := Nat.exists_eq_add_of_lt hij
      have hi' : rs[j + 1 + i']? = some ri := by simpa using hi
      simp at hj
      have hbet' : ∀ k, j < k → k < j + 1 + i' → ∀ rk, rs[k]? = some rk →
          rk.cbsa = none :=
        fun k hk1 hk2 rk hrk =>
          hbet (k + 1) (Nat.succ_lt_succ hk1) (by omega) rk (by simpa using hrk)
      cases hc : a.cbsa with
      | none =>
        obtain ⟨r', h1, h2⟩ := ih acc (j + 1 + i') j (by omega) hj hbet' hi'
        exact ⟨r', by simpa [ffillCBSA, hc] using h1, h2⟩
      | some w =>
        obtain ⟨r', h1, h2⟩ := ih (some w) (j + 1 + i') j (by omega) hj hbet' hi'
        exact ⟨r', by simpa [ffillCBSA, hc] using h1, h2⟩

/-- Nearest-preceding fill for the area-name column. -/
theorem ffillName_fill (acc : Option String) (l : List CityRow)
    (i j : Nat) (ri rj : CityRow) (hij : j < i)
    (hj : l[j]? = some rj) (hjv : rj.areaName = some v)
    (hbet : ∀ k, j < k → k < i → ∀ rk, l[k]? = some rk → rk.areaName = none)
    (hi : l[i]? = some ri) (hiv : ri.areaName = none) :
    ∃ r', (ffillName acc l)[i]? = some r' ∧ r'.areaName = some v := by
  induction l generalizing acc i j with
  | nil => simp at hj
  | cons a rs ih =>
    cases j with
    | zero =>
      simp at hj
      subst hj
      obtain ⟨i', rfl⟩ := Nat.exists_eq_add_of_lt hij
      simp only [Nat.zero_add] at *
      rw [List.getElem?_cons_succ] at hi
      obtain ⟨r', h1, h2⟩ := ffillName_all_none (some v) rs i' ri hi
        (fun k hk rk hrk => by
          rcases Nat.lt_or_ge k i' with hlt | hge
          · exact hbet (k + 1) (Nat.succ_pos _) (by omega) rk (by simpa using hrk)
          · have : k = i' := Nat.le_antisymm hk hge
            subst this
            rw [hi] at hrk
            cases hrk
            exact hiv)
      exact ⟨r', by simpa [ffillName, hjv] using h1, h2⟩
    | succ j =>
      obtain ⟨i', rfl⟩ := Nat.exists_eq_add_of_lt hij
      have hi' : rs[j + 1 + i']? = some ri := by simpa using hi
      simp at hj
      have hbet' : ∀ k, j < k → k < j + 1 + i' → ∀ rk, rs[k]? = some rk →
          rk.areaName = none :=
        fun k hk1 hk2 rk hrk =>
          hbet (k + 1) (Nat.succ_lt_succ hk1) (by omega) rk (by simpa using hrk)
      cases hc : a.areaName with
      | none =>
        obtain ⟨r', h1, h2⟩ := ih acc (j + 1 + i') j (by omega) hj hbet' hi'
        exact ⟨r', by simpa [ffillName, hc] using h1, h2⟩
      | some w =>
        obtain ⟨r', h1, h2⟩ := ih (some w) (j + 1 + i') j (by omega) hj hbet' hi'
        exact ⟨r', by simpa [ffillName, hc] using h1, h2⟩

/-- Claim C1: for the city table, forward-fill of the group-key columns
(CBSA code and area name) is correct: a row whose group-key value is present
keeps it unchanged, and a row whose group-key value is missing and that
follows some row with a present value ends up with the nearest preceding
present value of that column. -/
theorem claim_C1 (raw : List CityRow) :
    (∀ (i : Nat) (r : CityRow) (v : String), raw[i]? = some r → r.cbsa = some v →
      ∃ r', (load_city_data raw)[i]? = some r' ∧ r'.cbsa = some v) ∧
    (∀ (i : Nat) (r : CityRow) (v : String), raw[i]? = some r → r.areaName = some v →
      ∃ r', (load_city_data raw)[i]? = some r' ∧ r'.areaName = some v) ∧
    (∀ (i j : Nat) (ri rj : CityRow) (v : String), j < i →
      raw[j]? = some rj → rj.cbsa = some v →
      (∀ (k : Nat), j < k → k < i → ∀ (rk : CityRow), raw[k]? = some rk → rk.cbsa = none) →
      raw[i]? = some ri → ri.cbsa = none →
      ∃ r', (load_city_data raw)[i]? = some r' ∧ r'.cbsa = some v) ∧
    (∀ (i j : Nat) (ri rj : CityRow) (v : String), j < i →
      raw[j]? = some rj → rj.areaName = some v →
      (∀ (k : Nat), j < k → k < i → ∀ (rk : CityRow), raw[k]? = some rk → rk.areaName = none) →
      raw[i]? = some ri → ri.areaName = none →
      ∃ r', (load_city_data raw)[i]? = some r' ∧ r'.areaName = some v) := by
  refine ⟨?_, ?_, ?_, ?_⟩
  · intro i r v h hv
    obtain ⟨r1, h1, hv1⟩ := ffillCBSA_keep none raw i r h v hv
    obtain ⟨r', h', hc', _⟩ := ffillName_other_fields none _ i r1 h1
    exact ⟨r', h', by rw [hc', hv1]⟩
  · intro i r v h hv
    obtain ⟨r1, h1, hn1, _⟩ := ffillCBSA_other_fields none raw i r h
    obtain ⟨r', h', hv'⟩ := ffillName_keep none _ i r1 h1 v (by rw [hn1, hv])
    exact ⟨r', h', hv'⟩
  · intro i j ri rj v hij hj hjv hbet hi hiv
    obtain ⟨r1, h1, hv1⟩ := ffillCBSA_fill none raw i j ri rj hij hj hjv hbet hi hiv
    obtain ⟨r', h', hc', _⟩ := ffillName_other_fields none _ i r1 h1
    exact ⟨r', h', by rw [hc', hv1]⟩
  · intro i j ri rj v hij hj hjv hbet hi hiv
    obtain ⟨rj1, hj1, hjn1, _⟩ := ffillCBSA_other_fields none raw j rj hj
    obtain ⟨ri1, hi1, hin1, _⟩ := ffillCBSA_other_fields none raw i ri hi
    have hbet1 : ∀ k, j < k → k < i → ∀ rk,
        (ffillCBSA none raw)[k]? = some rk → rk.areaName = none := by
      intro k hk1 hk2 rk hrk
      have hklen : k < raw.length := by
        have := (List.getElem?_eq_some.mp hrk).1
        rwa [ffillCBSA_length] at this
      have hrawk : raw[k]? = some raw[k] := List.getElem?_eq_getElem hklen
      obtain ⟨rk', hrk', hn', _⟩ := ffillCBSA_other_fields none raw k _ hrawk
      rw [hrk] at hrk'
      cases hrk'
      rw [hn']
      exact hbet k hk1 hk2 _ hrawk
    obtain ⟨r', h', hv'⟩ := ffillName_fill none (ffillCBSA none raw) i j ri1 rj1
      hij hj1 (by rw [hjn1, hjv]) hbet1 hi1 (by rw [hin1, hiv])
    exact ⟨r', h', hv'⟩

/-- Concrete run of the C1 theorem: a three-row table whose second and third
rows are missing both group keys is filled with the first row's values. -/
theorem claim_C1_witness :
    ∃ r', (load_city_data
      [⟨some "10180", some "Abilene", some "CO", some "Mean", []⟩,
       ⟨none, none, some "O3", some "Mean", []⟩,
       ⟨none, none, some "PM", some "Mean", []⟩])[2]? = some r' ∧
      r'.cbsa = some "10180" := by
  exact (claim_C1 _).2.2.1 2 0 ⟨none, none, some "PM", some "Mean", []⟩
    ⟨some "10180", some "Abilene", some "CO", some "Mean", []⟩ "10180"
    (by omega) (by decide) (by decide)
    (by intro k hk1 hk2 rk hrk
        interval_cases k
        · simp at hrk
          rw [← hrk])
    (by decide) (by decide)

/-- `preprocess_city_data`: `city_data.dropna(subset=['Pollutant', 'Trend
Statistic'])` keeps exactly the rows where both classification columns are
present. -/
def preprocess_city_data (city_data : List CityRow) : List CityRow :=
  city_data.filter (fun r => r.pollutant.isSome && r.trendStat.isSome)

/-- Module-level city pipeline: `city_data = load_city_data()` followed by
`city_data = preprocess_city_data(city_data)`. -/
def cityPipeline (raw : List CityRow) : List CityRow :=
  preprocess_city_data (load_city_data raw)

/-- `city_data[city_data['CBSA'] == city_cbs_code]`: exact-match filter on
the CBSA column (a missing CBSA never matches, as `NaN == x` is false). -/
def filterCityByCBSA (data : List CityRow) (code : String) : List CityRow :=
  data.filter (fun r => r.cbsa == some code)

/-- One row of the merged county table: the cleaned cells of one CSV row
(column 0 `County Code`, column 1 `County`, pollutant columns from index 2)
plus the stamped `Year` column. -/
structure CountyRow where
  cells : List (Option String)
  year : Nat
  deriving Repr, DecidableEq

/-- One cell of `df.replace('.', pd.NA)`: the literal placeholder string
`"."` becomes the missing marker, every other value is kept. -/
def cleanCell (s : String) : Option String :=
  if s = "." then none else some s

/-- `df.replace('.', pd.NA)` applied to one CSV row. -/
def cleanRow (rr : List String) : List (Option String) :=
  rr.map cleanCell

/-- One iteration of the county loader loop on a present file: `df =
pd.read_csv(url)`, `df.replace('.', pd.NA, inplace=True)`, `df['Year'] =
year`. -/
def stampClean (year : Nat) (raw : List (List String)) : List CountyRow :=
  raw.map (fun rr => ⟨cleanRow rr, year⟩)

/-- The `County` column of a merged county row (column index 1). -/
def countyOf (r : CountyRow) : Option String :=
  r.cells.getD 1 none

/-- The fixed year range of the county loader: `range(2000, 2023 + 1)`. -/
def yearRange : List Nat := List.range' 2000 24

/-- The county loader loop over a list of years.  `fetch` models
`pd.read_csv` on the per-year URL: `none` means the file is absent, in which
case `read_csv` raises and the whole load fails (the source has no
try/except around it). -/
def loadYears (fetch : Nat → Option (List (List String))) :
    List Nat → Except String (List CountyRow)
  | [] => Except.ok []
  | y :: ys =>
    match fetch y with
    | none => Except.error "HTTPError: conreport file not found"
    | some raw =>
      match loadYears fetch ys with
      | Except.ok rest => Except.ok (stampClean y raw ++ rest)
      | Except.error e => Except.error e

/-- `load_and_clean_county_data`: iterates the fixed year range, loads,
cleans and year-stamps each file, and concatenates the yearly tables with
`pd.concat`. -/
def load_and_clean_county_data (fetch : Nat → Option (List (List String))) :
    Except String (List CountyRow) :=
  loadYears fetch yearRange

/-- `county_data[county_data['County'] == selected_county]`: exact-match
filter on the `County` column. -/
def filterCountyByName (data : List CountyRow) (name : String) : List CountyRow :=
  data.filter (fun r => countyOf r == some name)

/-- Claim C7: cleaning the city table drops exactly the rows missing the
pollutant identifier or the trend-statistic kind, keeps every other row
unchanged, the dropping happens before the plot-time CBSA filtering, and
every row of the preprocessed table has both classification values
present. -/
theorem claim_C7 :
    (∀ d : List CityRow,
      (∀ r ∈ preprocess_city_data d, r.pollutant ≠ none ∧ r.trendStat ≠ none) ∧
      (∀ r ∈ d, r.pollutant ≠ none → r.trendStat ≠ none →
        r ∈ preprocess_city_data d) ∧
      (preprocess_city_data d).Sublist d ∧
      (∀ r ∈ d, r ∉ preprocess_city_data d →
        r.pollutant = none ∨ r.trendStat = none)) ∧
    (∀ (raw : List CityRow) (code : String),
      ∀ r ∈ filterCityByCBSA (cityPipeline raw) code,
        r.pollutant ≠ none ∧ r.trendStat ≠ none) := by
  have key : ∀ d : List CityRow, ∀ r ∈ preprocess_city_data d,
      r.pollutant ≠ none ∧ r.trendStat ≠ none := by
    intro d r hr
    rw [preprocess_city_data, List.mem_filter] at hr
    obtain ⟨-, hp⟩ := hr
    simp only [Bool.and_eq_true, Option.isSome_iff_ne_none] at hp
    exact hp
  refine ⟨fun d => ⟨key d, ?_, List.filter_sublist _, ?_⟩, ?_⟩
  · intro r hr hp ht
    rw [preprocess_city_data, List.mem_filter]
    refine ⟨hr, ?_⟩
    simp only [Bool.and_eq_true, Option.isSome_iff_ne_none]
    exact ⟨hp, ht⟩
  · intro r hr hnot
    by_contra hcon
    push_neg at hcon
    exact hnot (by
      rw [preprocess_city_data, List.mem_filter]
      refine ⟨hr, ?_⟩
      simp only [Bool.and_eq_true, Option.isSome_iff_ne_none]
      exact hcon)
  · intro raw code r hr
    rw [filterCityByCBSA, List.mem_filter] at hr
    exact key _ r hr.1

/-- Concrete run of the C7 theorem: a row missing its trend statistic is
dropped, a complete row is kept with both values present. -/
theorem claim_C7_witness :
    (⟨some "10180", some "Abilene", some "CO", some "Mean", []⟩ : CityRow) ∈
      preprocess_city_data
        [⟨some "10180", some "Abilene", some "CO", some "Mean", []⟩,
         ⟨some "10180", some "Abilene", some "CO", none, []⟩] ∧
    (⟨some "10180", some "Abilene", some "CO", none, []⟩ : CityRow) ∉
      preprocess_city_data
        [⟨some "10180", some "Abilene", some "CO", some "Mean", []⟩,
         ⟨some "10180", some "Abilene", some "CO", none, []⟩] := by
  constructor
  · exact (claim_C7.1 _).2.1 _ (by decide) (by decide) (by decide)
  · intro hmem
    have := (claim_C7.1 _).1 _ hmem
    simp at this

/-- Claim C6: exact-match filtering on the single key column (CBSA for the
city table, County for the county table) returns exactly the rows whose key
equals the given value, omits no matching row, and preserves the input row
order (the result is a sublist of the input). -/
theorem claim_C6 :
    (∀ (data : List CityRow) (code : String),
      (∀ r ∈ filterCityByCBSA data code, r.cbsa = some code) ∧
      (∀ r ∈ data, r.cbsa = some code → r ∈ filterCityByCBSA data code) ∧
      (filterCityByCBSA data code).Sublist data) ∧
    (∀ (data : List CountyRow) (name : String),
      (∀ r ∈ filterCountyByName data name, countyOf r = some name) ∧
      (∀ r ∈ data, countyOf r = some name → r ∈ filterCountyByName data name) ∧
      (filterCountyByName data name).Sublist data) := by
  constructor
  · intro data code
    refine ⟨?_, ?_, List.filter_sublist _⟩
    · intro r hr
      rw [filterCityByCBSA, List.mem_filter] at hr
      exact eq_of_beq hr.2
    · intro r hr hv
      rw [filterCityByCBSA, List.mem_filter]
      exact ⟨hr, by simp [hv]⟩
  · intro data name
    refine ⟨?_, ?_, List.filter_sublist _⟩
    · intro r hr
      rw [filterCountyByName, List.mem_filter] at hr
      exact eq_of_beq hr.2
    · intro r hr hv
      rw [filterCountyByName, List.mem_filter]
      exact ⟨hr, by simp [hv]⟩

/-- Concrete run of the C6 theorem: the matching row of a two-row table is
returned and carries the requested key. -/
theorem claim_C6_witness :
    (⟨some "10180", some "Abilene", some "CO", some "Mean", []⟩ : CityRow) ∈
      filterCityByCBSA
        [⟨some "10180", some "Abilene", some "CO", some "Mean", []⟩,
         ⟨some "10420", some "Akron", some "CO", some "Mean", []⟩] "10180" ∧
    ∀ r ∈ filterCityByCBSA
        [⟨some "10180", some "Abilene", some "CO", some "Mean", []⟩,
         ⟨some "10420", some "Akron", some "CO", some "Mean", []⟩] "10180",
      r.cbsa = some "10180" := by
  constructor
  · exact (claim_C6.1 _ "10180").2.1 _ (by decide) (by decide)
  · exact (claim_C6.1 _ "10180").1

/-- Value of a digit string read left to right. -/
def digitsToNat (ds : List Char) : Nat :=
  ds.foldl (fun n c => 10 * n + (c.toNat - 48)) 0

/-- Decimal-literal parser modelling what `pd.to_numeric` accepts on a
single cell: optional sign, integer digits, optional fraction digits; any
other shape is unparseable. -/
def parseNum (s : String) : Option ℚ :=
  let cs := s.data
  let sign : Bool × List Char :=
    match cs with
    | '-' :: t => (true, t)
    | '+' :: t => (false, t)
    | _ => (false, cs)
  let ip := sign.2.takeWhile Char.isDigit
  let rest := sign.2.dropWhile Char.isDigit
  match rest with
  | [] =>
    if ip.isEmpty then none
    else some (if sign.1 then -(digitsToNat ip : ℚ) else (digitsToNat ip : ℚ))
  | '.' :: frac =>
    if frac.all Char.isDigit && !(ip.isEmpty && frac.isEmpty) then
      let q : ℚ := (digitsToNat ip : ℚ) + (digitsToNat frac : ℚ) / ((10 : ℚ) ^ frac.length)
      some (if sign.1 then -q else q)
    else none
  | _ => none

/-- `pd.to_numeric(cell, errors='coerce')` on one cell: a missing cell and
an unparseable cell both coerce to NaN (`none`). -/
def coerceCell (c : Option String) : Option ℚ :=
  c.bind parseNum

/-- The pandas row view of a city row used by `row[4:]`: the four leading
metadata columns followed by the year columns, in CSV order. -/
def rowSeries (r : CityRow) : List (Option String) :=
  [r.cbsa, r.areaName, r.pollutant, r.trendStat] ++ r.years

/-- `pd.to_numeric(row[4:], errors='coerce').fillna(0)`: the numeric year
series of one city row, unparseable and missing cells becoming 0. -/
def dataValues (r : CityRow) : List ℚ :=
  ((rowSeries r).drop 4).map (fun c => (coerceCell c).getD 0)

/-- `[str(year) for year in range(2000, 2023 + 1)]`: the fixed x-axis
labels. -/
def yearLabels : List String :=
  (List.range' 2000 24).map toString

/-- Claim C5: year-series extraction for a city row selects exactly the
year columns (skipping the four leading metadata columns), coerces each
selected cell to a total numeric value, and maps any unparseable or missing
cell to 0 rather than an error or a missing value; on a well-formed row the
series is index-aligned with the fixed labels 2000-2023. -/
theorem claim_C5 (r : CityRow) :
    (rowSeries r).drop 4 = r.years ∧
    dataValues r = r.years.map (fun c => (coerceCell c).getD 0) ∧
    (dataValues r).length = r.years.length ∧
    (r.years.length = 24 → (dataValues r).length = yearLabels.length) ∧
    (∀ (i : Nat) (c : Option String), r.years[i]? = some c →
      ((coerceCell c = none → (dataValues r)[i]? = some 0) ∧
       (∀ q : ℚ, coerceCell c = some q → (dataValues r)[i]? = some q))) := by
  have hdrop : (rowSeries r).drop 4 = r.years := by
    simp [rowSeries]
  have hdv : dataValues r = r.years.map (fun c => (coerceCell c).getD 0) := by
    rw [dataValues, hdrop]
  refine ⟨hdrop, hdv, ?_, ?_, ?_⟩
  · rw [hdv, List.length_map]
  · intro h24
    rw [hdv, List.length_map, h24, yearLabels, List.length_map, List.length_range']
  · intro i c hc
    have hval : (dataValues r)[i]? = some ((coerceCell c).getD 0) := by
      rw [hdv, List.getElem?_map, hc]
      rfl
    constructor
    · intro hnone
      rw [hval, hnone]
      rfl
    · intro q hq
      rw [hval, hq]
      rfl

/-- Concrete run of the C5 theorem: an unparseable cell yields 0, a numeric
cell yields its value. -/
theorem claim_C5_witness :
    (dataValues ⟨some "10180", some "Abilene", some "CO", some "Mean",
      [some "abc", some "5", none]⟩)[0]? = some 0 ∧
    (dataValues ⟨some "10180", some "Abilene", some "CO", some "Mean",
      [some "abc", some "5", none]⟩)[1]? = some 5 := by
  constructor
  · exact ((claim_C5 ⟨some "10180", some "Abilene", some "CO", some "Mean",
      [some "abc", some "5", none]⟩).2.2.2.2 0 (some "abc") (by decide)).1 (by decide)
  · exact ((claim_C5 ⟨some "10180", some "Abilene", some "CO", some "Mean",
      [some "abc", some "5", none]⟩).2.2.2.2 1 (some "5") (by decide)).2 5 (by decide)

/-- `data[['Year', pollutant]]`: the Year/pollutant column pair of a county
table, the pollutant given by its column index. -/
def selectYearPoll (data : List CountyRow) (p : Nat) : List (Nat × Option String) :=
  data.map (fun r => (r.year, r.cells.getD p none))

/-- `Series.count()`: the number of non-missing entries of a column. -/
def seriesCount (col : List (Option String)) : Nat :=
  (col.filter (fun c => c.isSome)).length

/-- `has_enough_data`: `data[pollutant].count() >= 3` on a Year/pollutant
frame. -/
def has_enough_data (frame : List (Nat × Option String)) : Bool :=
  decide (3 ≤ seriesCount (frame.map (fun x => x.2)))

/-- Outcome of `plot_county_pollutant`: either the "no data" message or a
chart of the remaining (Year, value) points. -/
inductive PlotResult where
  | noData : PlotResult
  | chart : List (Nat × Option String) → PlotResult
  deriving Repr, DecidableEq

/-- `plot_county_pollutant`: select the Year and pollutant columns,
`dropna()`, then either surface the no-data message or render the series of
the remaining points. -/
def plot_county_pollutant (data : List CountyRow) (p : Nat) : PlotResult :=
  let sub := (selectYearPoll data p).filter (fun x => x.2.isSome)
  if has_enough_data sub then PlotResult.chart sub else PlotResult.noData

theorem filter_isSome_length (l : List (Nat × Option String)) :
    (l.filter (fun x => x.2.isSome)).length =
      seriesCount (l.map (fun x => x.2)) := by
  rw [seriesCount, List.filter_map, List.length_map]
  rfl

theorem filter_isSome_count (l : List (Nat × Option String)) :
    seriesCount ((l.filter (fun x => x.2.isSome)).map (fun x => x.2)) =
      (l.filter (fun x => x.2.isSome)).length := by
  rw [← filter_isSome_length, List.filter_filter]
  congr 1
  apply List.filter_congr
  intro x _
  simp

/-- Claim C3: the time-series chart for a (county, pollutant) selection is
rendered exactly when the subset has at least 3 non-missing values in the
pollutant column; with fewer the "no data" message is produced; and the
rendered series consists of exactly the non-missing (Year, value) points,
one per non-missing cell. -/
theorem claim_C3 (data : List CountyRow) (p : Nat) :
    (plot_county_pollutant data p =
        PlotResult.chart ((selectYearPoll data p).filter (fun x => x.2.isSome)) ↔
      3 ≤ seriesCount ((selectYearPoll data p).map (fun x => x.2))) ∧
    (plot_county_pollutant data p = PlotResult.noData ↔
      seriesCount ((selectYearPoll data p).map (fun x => x.2)) < 3) ∧
    ((selectYearPoll data p).filter (fun x => x.2.isSome)).length =
      seriesCount ((selectYearPoll data p).map (fun x => x.2)) ∧
    (∀ (y : Nat) (v : String),
      (y, some v) ∈ (selectYearPoll data p).filter (fun x => x.2.isSome) ↔
      ∃ r ∈ data, r.year = y ∧ r.cells.getD p none = some v) := by
  have hn : seriesCount
      (((selectYearPoll data p).filter (fun x => x.2.isSome)).map (fun x => x.2)) =
      seriesCount ((selectYearPoll data p).map (fun x => x.2)) := by
    rw [filter_isSome_count, filter_isSome_length]
  refine ⟨?_, ?_, filter_isSome_length _, ?_⟩
  · rw [plot_county_pollutant, has_enough_data, hn]
    by_cases h3 : 3 ≤ seriesCount ((selectYearPoll data p).map (fun x => x.2)) <;>
      simp [h3]
  · rw [plot_county_pollutant, has_enough_data, hn]
    by_cases h3 : 3 ≤ seriesCount ((selectYearPoll data p).map (fun x => x.2))
    · simp [h3]
    · simp [h3]
      omega
  · intro y v
    constructor
    · intro hmem
      rw [List.mem_filter] at hmem
      obtain ⟨hmem, -⟩ := hmem
      rw [selectYearPoll, List.mem_map] at hmem
      obtain ⟨r, hr, heq⟩ := hmem
      exact ⟨r, hr, congrArg Prod.fst heq, congrArg Prod.snd heq⟩
    · rintro ⟨r, hr, hy, hv⟩
      rw [List.mem_filter]
      refine ⟨?_, rfl⟩
      rw [selectYearPoll, List.mem_map]
      exact ⟨r, hr, by rw [hy, hv]⟩

/-- Concrete run of the C3 theorem: three non-missing points render a chart
of exactly those points, two non-missing points yield the no-data message. -/
theorem claim_C3_witness :
    plot_county_pollutant
      [⟨[some "c", some "A", some "40"], 2000⟩,
       ⟨[some "c", some "A", some "41"], 2001⟩,
       ⟨[some "c", some "A", none], 2002⟩,
       ⟨[some "c", some "A", some "42"], 2003⟩] 2 =
      PlotResult.chart [(2000, some "40"), (2001, some "41"), (2003, some "42")] ∧
    plot_county_pollutant
      [⟨[some "c", some "A", some "40"], 2000⟩,
       ⟨[some "c", some "A", some "41"], 2001⟩,
       ⟨[some "c", some "A", none], 2002⟩] 2 =
      PlotResult.noData := by
  constructor
  · exact (claim_C3
      [⟨[some "c", some "A", some "40"], 2000⟩,
       ⟨[some "c", some "A", some "41"], 2001⟩,
       ⟨[some "c", some "A", none], 2002⟩,
       ⟨[some "c", some "A", some "42"], 2003⟩] 2).1.mpr (by decide)
  · exact (claim_C3
      [⟨[some "c", some "A", some "40"], 2000⟩,
       ⟨[some "c", some "A", some "41"], 2001⟩,
       ⟨[some "c", some "A", none], 2002⟩] 2).2.1.mpr (by decide)

theorem cleanCell_ne_placeholder (s : String) : cleanCell s ≠ some "." := by
  by_cases h : s = "." <;> simp [cleanCell, h]

theorem cleanRow_getD (rr : List String) (p : Nat) :
    (cleanRow rr).getD p none =
      match rr[p]? with
      | none => none
      | some s => cleanCell s := by
  rw [List.getD_eq_getElem?_getD, cleanRow, List.getElem?_map]
  cases rr[p]? <;> rfl

theorem seriesCount_cons (c : Option String) (l : List (Option String)) :
    seriesCount (c :: l) = (if c.isSome then 1 else 0) + seriesCount l := by
  cases c <;> simp [seriesCount, List.filter_cons, Nat.add_comm]

theorem countyCount_eq (year p : Nat) (raw : List (List String)) :
    seriesCount ((stampClean year raw).map (fun r => r.cells.getD p none)) =
      ((raw.filterMap (fun rr => rr[p]?)).filter (fun s => s != ".")).length := by
  induction raw with
  | nil => rfl
  | cons rr t ih =>
    have hstep : (stampClean year (rr :: t)).map (fun r => r.cells.getD p none) =
        (cleanRow rr).getD p none ::
          (stampClean year t).map (fun r => r.cells.getD p none) := rfl
    rw [hstep, seriesCount_cons, List.filterMap_cons]
    cases hcell : rr[p]? with
    | none =>
      have hc : (cleanRow rr).getD p none = none := by rw [cleanRow_getD, hcell]
      rw [hc, ih]
      simp
    | some s =>
      have hc : (cleanRow rr).getD p none = cleanCell s := by rw [cleanRow_getD, hcell]
      by_cases hs : s = "."
      · have : cleanCell s = none := by rw [cleanCell, if_pos hs]
        rw [hc, this, ih, List.filter_cons]
        simp [hs]
      · have : cleanCell s = some s := by rw [cleanCell, if_neg hs]
        rw [hc, this, ih, List.filter_cons]
        simp [hs, Nat.add_comm]

/-- Claim C4: in the county data, every cell holding the literal string "."
becomes the missing marker (no cell of the cleaned table is the literal
string "."), and such cells are excluded from the non-missing count used by
the threshold check and never appear among the plotted points. -/
theorem claim_C4 (year p : Nat) (raw : List (List String)) :
    (∀ r ∈ stampClean year raw, ∀ c ∈ r.cells, c ≠ some ".") ∧
    (∀ (i : Nat) (rr : List String), raw[i]? = some rr →
      ∀ (j : Nat), rr[j]? = some "." →
        ∃ r, (stampClean year raw)[i]? = some r ∧ r.cells[j]? = some none) ∧
    (seriesCount ((stampClean year raw).map (fun r => r.cells.getD p none)) =
      ((raw.filterMap (fun rr => rr[p]?)).filter (fun s => s != ".")).length) ∧
    (∀ x ∈ (selectYearPoll (stampClean year raw) p).filter (fun t => t.2.isSome),
      x.2 ≠ some ".") := by
  refine ⟨?_, ?_, countyCount_eq year p raw, ?_⟩
  · intro r hr c hc
    rw [stampClean, List.mem_map] at hr
    obtain ⟨rr, -, rfl⟩ := hr
    rw [cleanRow, List.mem_map] at hc
    obtain ⟨s, -, rfl⟩ := hc
    exact cleanCell_ne_placeholder s
  · intro i rr hi j hj
    refine ⟨⟨cleanRow rr, year⟩, ?_, ?_⟩
    · rw [stampClean, List.getElem?_map, hi]
      rfl
    · rw [cleanRow, List.getElem?_map, hj]
      rfl
  · intro x hx
    rw [List.mem_filter] at hx
    obtain ⟨hx, -⟩ := hx
    rw [selectYearPoll, List.mem_map] at hx
    obtain ⟨r, hr, rfl⟩ := hx
    rw [stampClean, List.mem_map] at hr
    obtain ⟨rr, -, rfl⟩ := hr
    show (cleanRow rr).getD p none ≠ some "."
    rw [cleanRow_getD]
    cases rr[p]? with
    | none => simp
    | some s => exact cleanCell_ne_placeholder s

/-- Concrete run of the C4 theorem: the "." cell of a raw county row is
missing after cleaning, and the cleaned column counts only the two non-"."
cells. -/
theorem claim_C4_witness :
    (∃ r, (stampClean 2000 [["35001", "Bernalillo", "."],
        ["35003", "Catron", "40"], ["35005", "Chaves", "41"]])[0]? = some r ∧
      r.cells[2]? = some none) ∧
    seriesCount ((stampClean 2000 [["35001", "Bernalillo", "."],
        ["35003", "Catron", "40"], ["35005", "Chaves", "41"]]).map
      (fun r => r.cells.getD 2 none)) = 2 := by
  constructor
  · exact (claim_C4 2000 2 _).2.1 0 ["35001", "Bernalillo", "."] (by decide) 2 (by decide)
  · rw [(claim_C4 2000 2 _).2.2.1]
    decide

theorem loadYears_ok_iff (fetch : Nat → Option (List (List String)))
    (ys : List Nat) (out : List CountyRow)
    (h : loadYears fetch ys = Except.ok out) :
    (∀ y ∈ ys, (fetch y).isSome) ∧
      out = (ys.map (fun y => stampClean y ((fetch y).getD []))).flatten := by
  induction ys generalizing out with
  | nil =>
    rw [loadYears] at h
    cases h
    exact ⟨by simp, rfl⟩
  | cons y t ih =>
    rw [loadYears] at h
    cases hf : fetch y with
    | none => rw [hf] at h; cases h
    | some raw =>
      rw [hf] at h
      cases hr : loadYears fetch t with
      | error e => rw [hr] at h; cases h
      | ok rest =>
        rw [hr] at h
        cases h
        obtain ⟨h1, h2⟩ := ih rest hr
        refine ⟨?_, ?_⟩
        · intro y' hy'
          rcases List.mem_cons.mp hy' with rfl | hyt
          · rw [hf]; rfl
          · exact h1 y' hyt
        · rw [List.map_cons, List.flatten_cons, hf, ← h2]
          rfl

theorem loadYears_all_present (fetch : Nat → Option (List (List String)))
    (ys : List Nat) (h : ∀ y ∈ ys, (fetch y).isSome) :
    loadYears fetch ys =
      Except.ok ((ys.map (fun y => stampClean y ((fetch y).getD []))).flatten) := by
  induction ys with
  | nil => rfl
  | cons y t ih =>
    obtain ⟨raw, hf⟩ := Option.isSome_iff_exists.mp (h y (by simp))
    rw [loadYears, hf, ih (fun y' hy' => h y' (by simp [hy']))]
    rw [List.map_cons, List.flatten_cons, hf]
    rfl

theorem loadYears_error_of_absent (fetch : Nat → Option (List (List String)))
    (ys : List Nat) (y0 : Nat) (hy : y0 ∈ ys) (hf : fetch y0 = none) :
    ∃ msg, loadYears fetch ys = Except.error msg := by
  induction ys with
  | nil => simp at hy
  | cons y t ih =>
    cases hfy : fetch y with
    | none => exact ⟨_, by rw [loadYears, hfy]⟩
    | some raw =>
      have hyt : y0 ∈ t := by
        rcases List.mem_cons.mp hy with rfl | hyt
        · rw [hf] at hfy; cases hfy
        · exact hyt
      obtain ⟨msg, hmsg⟩ := ih hyt
      exact ⟨msg, by rw [loadYears, hfy, hmsg]⟩

/-- Claim C2 (amended): the county loader attempts every year 2000-2023
unconditionally; it succeeds with the concatenation of the cleaned,
year-stamped yearly tables exactly when every yearly file is present, and
the load fails whenever any year's file is absent (the read error
propagates: there is no skip-and-continue and no separate zero-files
condition). -/
theorem claim_C2 (fetch : Nat → Option (List (List String))) :
    ((∀ y ∈ yearRange, (fetch y).isSome) →
      load_and_clean_county_data fetch =
        Except.ok ((yearRange.map (fun y => stampClean y ((fetch y).getD []))).flatten)) ∧
    (∀ y0 ∈ yearRange, fetch y0 = none →
      ∃ msg, load_and_clean_county_data fetch = Except.error msg) := by
  constructor
  · intro h
    exact loadYears_all_present fetch yearRange h
  · intro y0 hy0 hf
    exact loadYears_error_of_absent fetch yearRange y0 hy0 hf

/-- A fetch table where only the year-2000 file exists. -/
def fetchOnly2000 : Nat → Option (List (List String)) :=
  fun y => if y = 2000 then some [["35001", "Bernalillo", "40"]] else none

/-- Claim C2 counterexample: with only the 2000 file present (at least one
file found), the code does not skip the missing years and succeed — it
fails with the propagated read error, contrary to the claimed
skip-and-concatenate behaviour. -/
theorem claim_C2_counterexample :
    (fetchOnly2000 2000).isSome ∧
    load_and_clean_county_data fetchOnly2000 =
      Except.error "HTTPError: conreport file not found" := by
  exact ⟨rfl, rfl⟩

/-- A fetch table where every yearly file exists and is empty. -/
def fetchAllEmpty : Nat → Option (List (List String)) :=
  fun _ => some []

/-- A fetch table with no files at all. -/
def fetchAbsent : Nat → Option (List (List String)) :=
  fun _ => none

/-- Concrete run of the C2 theorem: all files present gives a successful
load; a missing file gives a failing load. -/
theorem claim_C2_witness :
    (∃ t, load_and_clean_county_data fetchAllEmpty = Except.ok t) ∧
    (∃ msg, load_and_clean_county_data fetchAbsent = Except.error msg) := by
  constructor
  · exact ⟨_, (claim_C2 fetchAllEmpty).1 (by decide)⟩
  · exact (claim_C2 fetchAbsent).2 2000 (by decide) rfl

theorem mem_year_flatten (fetch : Nat → Option (List (List String)))
    (ys : List Nat) (r : CountyRow)
    (hr : r ∈ (ys.map (fun y => stampClean y ((fetch y).getD []))).flatten) :
    r.year ∈ ys := by
  rw [List.mem_flatten] at hr
  obtain ⟨l, hl, hrl⟩ := hr
  rw [List.mem_map] at hl
  obtain ⟨y, hy, rfl⟩ := hl
  simp only [stampClean, List.mem_map] at hrl
  obtain ⟨rr, -, rfl⟩ := hrl
  exact hy

theorem pairwise_year_stampClean (y : Nat) (raw : List (List String)) :
    List.Pairwise (fun a b => a.year ≤ b.year) (stampClean y raw) := by
  induction raw with
  | nil => exact List.Pairwise.nil
  | cons a t ih =>
    refine List.Pairwise.cons ?_ ih
    intro b hb
    simp only [stampClean, List.mem_map] at hb
    obtain ⟨rr, -, rfl⟩ := hb
    exact Nat.le_refl y

theorem pairwise_year_flatten (fetch : Nat → Option (List (List String)))
    (ys : List Nat) (hys : ys.Pairwise (· < ·)) :
    List.Pairwise (fun a b => a.year ≤ b.year)
      ((ys.map (fun y => stampClean y ((fetch y).getD []))).flatten) := by
  induction ys with
  | nil => exact List.Pairwise.nil
  | cons y t ih =>
    rw [List.map_cons, List.flatten_cons, List.pairwise_append]
    obtain ⟨hy, ht⟩ := List.pairwise_cons.mp hys
    refine ⟨pairwise_year_stampClean y _, ih ht, ?_⟩
    intro a ha b hb
    have hay : a.year = y := by
      rw [stampClean, List.mem_map] at ha
      obtain ⟨rr, -, rfl⟩ := ha
      rfl
    have hby : b.year ∈ t := mem_year_flatten fetch t b hb
    rw [hay]
    exact Nat.le_of_lt (hy _ hby)

theorem filter_year_flatten (fetch : Nat → Option (List (List String)))
    (ys : List Nat) (hys : ys.Pairwise (· < ·)) (y : Nat) (hy : y ∈ ys) :
    ((ys.map (fun y' => stampClean y' ((fetch y').getD []))).flatten).filter
        (fun r => r.year == y) = stampClean y ((fetch y).getD []) := by
  induction ys with
  | nil => simp at hy
  | cons z t ih =>
    rw [List.map_cons, List.flatten_cons, List.filter_append]
    obtain ⟨hz, ht⟩ := List.pairwise_cons.mp hys
    rcases List.mem_cons.mp hy with rfl | hyt
    · have h1 : (stampClean y ((fetch y).getD [])).filter (fun r => r.year == y) =
          stampClean y ((fetch y).getD []) := by
        rw [List.filter_eq_self]
        intro r hr
        rw [stampClean, List.mem_map] at hr
        obtain ⟨rr, -, rfl⟩ := hr
        simp
      have h2 : ((t.map (fun y' => stampClean y' ((fetch y').getD []))).flatten).filter
          (fun r => r.year == y) = [] := by
        rw [List.filter_eq_nil_iff]
        intro r hr
        have hmem := mem_year_flatten fetch t r hr
        have hlt := hz _ hmem
        simp only [beq_iff_eq]
        omega
      rw [h1, h2, List.append_nil]
    · have hzy : z < y := hz _ hyt
      have h1 : (stampClean z ((fetch z).getD [])).filter (fun r => r.year == y) = [] := by
        rw [List.filter_eq_nil_iff]
        intro r hr
        rw [stampClean, List.mem_map] at hr
        obtain ⟨rr, -, rfl⟩ := hr
        simp only [beq_iff_eq]
        omega
      rw [h1, List.nil_append, ih ht hyt]

/-- Claim C8: whenever the county load succeeds, every merged row carries a
year in the loaded range equal to the year of the source file it came from
(the rows stamped with year y are exactly the cleaned rows of file y, in
original file order), and the merged rows appear in ascending year order. -/
theorem claim_C8 (fetch : Nat → Option (List (List String)))
    (merged : List CountyRow)
    (h : load_and_clean_county_data fetch = Except.ok merged) :
    (∀ r ∈ merged, r.year ∈ yearRange) ∧
    List.Pairwise (fun a b => a.year ≤ b.year) merged ∧
    (∀ y ∈ yearRange, ∀ raw, fetch y = some raw →
      merged.filter (fun r => r.year == y) = stampClean y raw) := by
  obtain ⟨-, rfl⟩ := loadYears_ok_iff fetch yearRange merged h
  have hsort : yearRange.Pairwise (· < ·) := by decide
  refine ⟨?_, pairwise_year_flatten fetch yearRange hsort, ?_⟩
  · intro r hr
    exact mem_year_flatten fetch yearRange r hr
  · intro y hy raw hraw
    rw [filter_year_flatten fetch yearRange hsort y hy, hraw]
    rfl

/-- A fetch table with one identical row in every yearly file. -/
def fetchOneRow : Nat → Option (List (List String)) :=
  fun _ => some [["35001", "Bernalillo", "40"]]

/-- Concrete run of the C8 theorem: the 24 stamped rows of a one-row-per-year
load appear in ascending year order, and the year-2000 slice is the cleaned
year-2000 file. -/
theorem claim_C8_witness :
    List.Pairwise (fun a b => a.year ≤ b.year)
      ((yearRange.map (fun y => stampClean y [["35001", "Bernalillo", "40"]])).flatten) ∧
    ((yearRange.map (fun y => stampClean y [["35001", "Bernalillo", "40"]])).flatten).filter
        (fun r => r.year == 2000) = stampClean 2000 [["35001", "Bernalillo", "40"]] := by
  have h : load_and_clean_county_data fetchOneRow =
      Except.ok ((yearRange.map
        (fun y => stampClean y [["35001", "Bernalillo", "40"]])).flatten) := by
    rfl
  exact ⟨(claim_C8 fetchOneRow _ h).2.1,
    (claim_C8 fetchOneRow _ h).2.2 2000 (by decide) _ rfl⟩

/-- The characters of the label separator `" - "`. -/
def sepChars : List Char := [' ', '-', ' ']

/-- Python `s.split(sep, 1)` on character lists: split at the first
occurrence of `sep` into the parts before and after it, `none` when `sep`
does not occur. -/
def splitFirst (sep : List Char) : List Char → Option (List Char × List Char)
  | [] => none
  | c :: rest =>
    if sep.isPrefixOf (c :: rest) then some ([], (c :: rest).drop sep.length)
    else
      match splitFirst sep rest with
      | some (pre, post) => some (c :: pre, post)
      | none => none

/-- `city_info.split(" - ", 1)` as used by `plot_city_pollutants`; a label
without the separator (where Python would raise) is returned unsplit. -/
def splitCityInfo (label : String) : String × String :=
  match splitFirst sepChars label.data with
  | some (pre, post) => (⟨pre⟩, ⟨post⟩)
  | none => (label, "")

/-- The CBSA part the chart function extracts from a selected label. -/
def cityCodeOf (label : String) : String :=
  (splitCityInfo label).1

/-- Python f-string formatting of one cell: a missing value (`NaN`) prints
as "nan". -/
def fmtCell : Option String → String
  | some s => s
  | none => "nan"

/-- `f"{row['CBSA']} - {row['Core Based Statistical Area']}"`: the selector
label of one city row. -/
def cityLabel (r : CityRow) : String :=
  fmtCell r.cbsa ++ " - " ++ fmtCell r.areaName

/-- `city_options`: the keys of `city_options_dict`, one per distinct label
of the cleaned city table. -/
def cityOptions (data : List CityRow) : List String :=
  (data.map cityLabel).dedup

/-- `county_data['County'].unique()`: the distinct County-column values. -/
def countyOptions (data : List CountyRow) : List (Option String) :=
  (data.map countyOf).dedup

/-- `county_data.columns[2:-1]`: the pollutant column indices of a merged
county table whose rows have `ncols` cells plus the trailing Year column. -/
def pollutantOptions (ncols : Nat) : List Nat :=
  (List.range ncols).drop 2

/-- The series drawn by `plot_city_pollutants`: one (pollutant, statistic,
values) triple per row of the CBSA-filtered table. -/
def plot_city_pollutants (data : List CityRow) (info : String) :
    List (String × String × List ℚ) :=
  (filterCityByCBSA data (cityCodeOf info)).map
    (fun r => (fmtCell r.pollutant, fmtCell r.trendStat, dataValues r))

theorem splitFirst_boundary (name : List Char) (cbsa : List Char)
    (h1 : ¬ sepChars <:+: cbsa) (h2 : ¬ [' ', '-'] <:+ cbsa) :
    splitFirst sepChars (cbsa ++ (sepChars ++ name)) = some (cbsa, name) := by
  induction cbsa with
  | nil =>
    simp [splitFirst, sepChars, List.isPrefixOf]
  | cons c rest ih =>
    have h1' : ¬ sepChars <:+: rest := by
      rintro ⟨s, t, hst⟩
      exact h1 ⟨c :: s, t, by rw [← hst]; rfl⟩
    have h2' : ¬ [' ', '-'] <:+ rest := by
      rintro ⟨t, ht⟩
      exact h2 ⟨c :: t, by rw [← ht]; rfl⟩
    have hrec := ih h1' h2'
    have hp : sepChars.isPrefixOf ((c :: rest) ++ (sepChars ++ name)) = false := by
      cases rest with
      | nil => simp [sepChars, List.isPrefixOf]
      | cons d rest2 =>
        cases rest2 with
        | nil =>
          rw [Bool.eq_false_iff]
          intro htrue
          simp only [List.cons_append, List.nil_append, sepChars, List.isPrefixOf,
            Bool.and_eq_true, beq_iff_eq] at htrue
          obtain ⟨hc, hd, -⟩ := htrue
          exact h2 ⟨[], by rw [← hc, ← hd]; rfl⟩
        | cons e rest3 =>
          rw [Bool.eq_false_iff]
          intro htrue
          simp only [List.cons_append, sepChars, List.isPrefixOf, Bool.and_eq_true,
            beq_iff_eq] at htrue
          obtain ⟨hc, hd, he, -⟩ := htrue
          exact h1 ⟨[], rest3, by rw [← hc, ← hd, ← he]; rfl⟩
    rw [List.cons_append, splitFirst]
    rw [List.cons_append] at hp
    rw [hp]
    simp only [Bool.false_eq_true, if_false]
    rw [hrec]

theorem splitCityInfo_eq (c n : String)
    (h1 : ¬ sepChars <:+: c.data) (h2 : ¬ [' ', '-'] <:+ c.data) :
    splitCityInfo (c ++ " - " ++ n) = (c, n) := by
  have hdata : (c ++ " - " ++ n).data = c.data ++ (sepChars ++ n.data) := by
    rw [String.data_append, String.data_append, List.append_assoc]
    rfl
  rw [splitCityInfo, hdata, splitFirst_boundary n.data c.data h1 h2]

/-- Claim C10 (amended): for every city row whose CBSA code contains no
occurrence of " - " and does not end with the two characters " -", building
the display label as code ++ " - " ++ name and splitting it on the first
" - " recovers exactly the original CBSA code.  (The original claim, with
the no-occurrence condition alone, is refuted by `claim_C10_counterexample`:
a code ending in " -" makes the separator match start inside the code.) -/
theorem claim_C10 (cbsa name : String)
    (h1 : ¬ sepChars <:+: cbsa.data) (h2 : ¬ [' ', '-'] <:+ cbsa.data) :
    (splitCityInfo (cbsa ++ " - " ++ name)).1 = cbsa := by
  rw [splitCityInfo_eq cbsa name h1 h2]

/-- Claim C10 counterexample: the CBSA code "A -" contains no occurrence of
the separator " - ", yet splitting its label does not recover it. -/
theorem claim_C10_counterexample :
    ¬ sepChars <:+: ("A -").data ∧
    (splitCityInfo ("A -" ++ " - " ++ "N")).1 ≠ "A -" := by
  exact ⟨by decide, by decide⟩

/-- Concrete run of the C10 theorem: a numeric CBSA code round-trips
through its label. -/
theorem claim_C10_witness :
    (splitCityInfo ("10180" ++ " - " ++ "Abilene, TX")).1 = "10180" :=
  claim_C10 "10180" "Abilene, TX" (by decide) (by decide)

/-- Claim C9 (amended): county options are the unique County values and
every present county value yields a nonempty exact-match filter; pollutant
options are exactly the data column indices of the county table; and, for a
city table all of whose rows carry a present CBSA code that neither
contains " - " nor ends with " -", every selector label's extracted code is
some row's own CBSA code and its filter is nonempty.  (Unrestricted, the
claim fails: `claim_C9_counterexample` selects a label whose extracted code
occurs nowhere, giving an empty filter.) -/
theorem claim_C9 :
    (∀ (data : List CityRow),
      (∀ r ∈ data, r.cbsa.isSome ∧ ¬ sepChars <:+: (r.cbsa.getD "").data ∧
        ¬ [' ', '-'] <:+ (r.cbsa.getD "").data) →
      ∀ label ∈ cityOptions data,
        ∃ r ∈ data, r.cbsa = some (cityCodeOf label) ∧
          filterCityByCBSA data (cityCodeOf label) ≠ []) ∧
    (∀ (data : List CountyRow) (v : String),
      some v ∈ data.map countyOf → filterCountyByName data v ≠ []) ∧
    (∀ (ncols : Nat), ∀ p ∈ pollutantOptions ncols, 2 ≤ p ∧ p < ncols) := by
  refine ⟨?_, ?_, ?_⟩
  · intro data hgood label hlabel
    rw [cityOptions, List.mem_dedup, List.mem_map] at hlabel
    obtain ⟨r, hr, rfl⟩ := hlabel
    obtain ⟨hsome, hinf, hsuf⟩ := hgood r hr
    obtain ⟨c, hc⟩ := Option.isSome_iff_exists.mp hsome
    rw [hc] at hinf hsuf
    have hcode : cityCodeOf (cityLabel r) = c := by
      rw [cityCodeOf, cityLabel, hc]
      show (splitCityInfo (c ++ " - " ++ fmtCell r.areaName)).1 = c
      rw [splitCityInfo_eq c (fmtCell r.areaName) hinf hsuf]
    refine ⟨r, hr, by rw [hcode, hc], ?_⟩
    apply List.ne_nil_of_mem (a := r)
    rw [filterCityByCBSA, List.mem_filter]
    refine ⟨hr, ?_⟩
    rw [hcode, hc]
    simp
  · intro data v hv
    rw [List.mem_map] at hv
    obtain ⟨r, hr, hrv⟩ := hv
    apply List.ne_nil_of_mem (a := r)
    rw [filterCountyByName, List.mem_filter]
    refine ⟨hr, ?_⟩
    rw [hrv]
    simp
  · intro ncols p hp
    have hp' : p ∈ (List.range ncols).drop 2 := hp
    obtain ⟨i, hilen, hi⟩ := List.getElem_of_mem hp'
    rw [List.getElem_drop, List.getElem_range] at hi
    rw [List.length_drop, List.length_range] at hilen
    omega

/-- Claim C9 counterexample: a cleaned city table whose single row has CBSA
code "A - B" produces the selector label "A - B - N"; the chart function
extracts the code "A", which occurs nowhere in the table, and the filter
returns no rows. -/
theorem claim_C9_counterexample :
    ∃ label ∈ cityOptions [⟨some "A - B", some "N", some "P", some "S", []⟩],
      (∀ r ∈ ([⟨some "A - B", some "N", some "P", some "S", []⟩] : List CityRow),
        r.cbsa ≠ some (cityCodeOf label)) ∧
      filterCityByCBSA [⟨some "A - B", some "N", some "P", some "S", []⟩]
        (cityCodeOf label) = [] := by
  decide

/-- Concrete run of the C9 theorem: the label of a well-formed row selects
that row. -/
theorem claim_C9_witness :
    ∃ r ∈ ([⟨some "10180", some "Abilene", some "CO", some "Mean", []⟩] : List CityRow),
      r.cbsa = some (cityCodeOf "10180 - Abilene") ∧
      filterCityByCBSA [⟨some "10180", some "Abilene", some "CO", some "Mean", []⟩]
        (cityCodeOf "10180 - Abilene") ≠ [] :=
  claim_C9.1 [⟨some "10180", some "Abilene", some "CO", some "Mean", []⟩]
    (by decide) "10180 - Abilene" (by decide)
